import Mathlib

/-!
Verification development for the `livedev` repository.

The repository's only source file is `setup.py`, a setuptools packaging
descriptor. Part 1 embeds that descriptor verbatim: its keyword arguments
as an association list and its text as a list of lines. Part 2 models the
watcher/reloader loop of the `livedev/livedev` script, which the descriptor
installs but whose source is not part of the repository; the model follows
the specification's description of that loop.
-/

namespace Livedev

/-! ## Part 1: the packaging descriptor `setup.py` -/

/-- A Python value appearing as a keyword argument of the `setup()` call:
either a string literal or a list of string literals. -/
inductive PyVal where
  | str (s : String)
  | list (xs : List String)
  deriving DecidableEq, Repr

/-- The keyword arguments of the `setup()` call in `src/setup.py`, in source
order. Commented-out keywords (the two `test_suite` lines) do not appear. -/
def setupKwargs : List (String × PyVal) := [
  ("name", PyVal.str "livedev"),
  ("author", PyVal.str "Samuel Angebault"),
  ("maintainer", PyVal.str "Samuel Angebault"),
  ("description", PyVal.str ""),
  ("license", PyVal.str "MIT"),
  ("scripts", PyVal.list ["livedev/livedev"]),
  ("install_requires", PyVal.list ["inotify>=0.2.10"]),
  ("tests_require", PyVal.list ["pytest"]),
  ("packages", PyVal.list ["tests"])]

/-- The list-valued keyword argument under `key`, or `[]` when absent
or string-valued. -/
def declaredList (key : String) : List String :=
  match setupKwargs.lookup key with
  | some (PyVal.list xs) => xs
  | _ => []

/-- Splits a character list at every '/' separator. -/
def splitOnSlash : List Char → List (List Char)
  | [] => [[]]
  | c :: rest =>
    let r := splitOnSlash rest
    if c = '/' then [] :: r
    else (c :: r.headD []) :: r.tail

/-- The name under which an installed script is invoked: the last
path component of its entry in `scripts`. -/
def scriptName (path : String) : String :=
  String.mk ((splitOnSlash path.data).getLastD path.data)

/-- The exact text of `src/setup.py`, one entry per line; the file ends
without a trailing newline after the final `)`. -/
def setupPyLines : List String := [
  "from setuptools import setup",
  "",
  "setup(",
  "    name=\x27livedev\x27,",
  "    author=\x27Samuel Angebault\x27,",
  "    maintainer=\x27Samuel Angebault\x27,",
  "    description=\x27\x27,",
  "    license=\x27MIT\x27,",
  "    scripts=[",
  "        \x27livedev/livedev\x27",
  "    ],",
  "    install_requires=[",
  "        \x27inotify>=0.2.10\x27,",
  "    ],",
  "    tests_require=[",
  "        \x27pytest\x27,",
  "    ],",
  "    packages=[",
  "        \x27tests\x27,",
  "    ],",
  "    # test_suite=\x27setup.get_test_suite\x27,",
  "    # test_suite=\x27tests\x27,",
  ")"]

/-! ## Part 2: the watcher/reloader loop

The `livedev/livedev` script that `setup.py` installs is not part of the
repository, so the loop below is modelled from the specification text
(sections 3 to 5): WatchTarget, ChangeEvent, DebounceWindow, and the single
serialized watcher loop. Time is a discrete `Nat`; the loop consumes a
time-ordered trace of change events and interrupts. -/

/-- Modelled from the spec: the watcher script is absent from the source;
the spec lists the kinds of a change notification as
created/modified/deleted/moved. -/
inductive EvKind where
  | created
  | modified
  | deleted
  | moved
  deriving DecidableEq, Repr

/-- Modelled from the spec: the watcher script is absent from the source;
a ChangeEvent is a filesystem notification record (path, kind). -/
structure ChangeEvent where
  path : String
  kind : EvKind
  deriving DecidableEq, Repr

/-- Modelled from the spec: the watcher script is absent from the source;
a WatchTarget is a filesystem path plus match rules (extension suffixes)
selecting which change events are relevant. -/
structure WatchTarget where
  path : String
  rules : List String
  deriving DecidableEq, Repr

/-- Modelled from the spec: the watcher script is absent from the source;
an event matches a target when its path lies under the target's path and
carries one of the target's rule suffixes. -/
def matchesTarget (w : WatchTarget) (e : ChangeEvent) : Bool :=
  List.isPrefixOf w.path.data e.path.data &&
    w.rules.any (fun r => List.isSuffixOf r.data e.path.data)

/-- Modelled from the spec: the watcher script is absent from the source;
the loop's input is one or more WatchTargets and a debounce interval
(the action is passed separately as a result oracle). -/
structure WatcherConfig where
  targets : List WatchTarget
  debounce : Nat
  deriving Repr

/-- Modelled from the spec: the watcher script is absent from the source;
an element of the loop's input trace is a change event delivered at a time,
or an external operator interrupt. -/
inductive Input where
  | change (t : Nat) (e : ChangeEvent)
  | interrupt (t : Nat)
  deriving DecidableEq, Repr

/-- True when the input is a change event rather than an interrupt. -/
def Input.isChange : Input → Bool
  | Input.change _ _ => true
  | Input.interrupt _ => false

/-- Modelled from the spec: the watcher script is absent from the source;
the loop's state: whether the subscriptions are held and the loop watches
(`alive`), the active DebounceWindow deadlines keyed by target index
(`timers`), the times at which the action was invoked (`log`), the count of
failures reported to the operator (`reported`), and the count of
subscription-release operations performed (`released`). -/
structure LoopState where
  alive : Bool
  timers : List (Nat × Nat)
  log : List Nat
  reported : Nat
  released : Nat
  deriving DecidableEq, Repr

/-- Modelled from the spec: the watcher script is absent from the source;
the loop starts watching with no timer, no invocation and no release. -/
def startState : LoopState := ⟨true, [], [], 0, 0⟩

/-- Modelled from the spec: the watcher script is absent from the source;
when time reaches `t`, every DebounceWindow whose deadline already passed
has elapsed without a new matching event: each one fires, invoking the
action once at its deadline; a failed invocation (the oracle `act` returns
false on the invocation's index) is reported and watching continues. -/
def fireElapsed (act : Nat → Bool) (t : Nat) (s : LoopState) : LoopState :=
  let elapsed := s.timers.filter (fun p => p.2 < t)
  { s with
    timers := s.timers.filter (fun p => t ≤ p.2),
    log := s.log ++ elapsed.map Prod.snd,
    reported := s.reported +
      (List.range elapsed.length).countP (fun k => !act (s.log.length + k)) }

/-- Modelled from the spec: the watcher script is absent from the source;
a matching event at time `t` (re)starts the DebounceWindow of target `i`,
superseding any active window of that target. -/
def restartTimer (cfg : WatcherConfig) (i t : Nat) (s : LoopState) : LoopState :=
  { s with timers := (i, t + cfg.debounce) :: s.timers.filter (fun p => p.1 ≠ i) }

/-- Modelled from the spec: the watcher script is absent from the source;
shutdown abandons all in-flight timers and releases the OS subscriptions,
doing nothing when the loop is already stopped. -/
def shutdown (s : LoopState) : LoopState :=
  if s.alive then { s with alive := false, timers := [], released := s.released + 1 }
  else s

/-- Modelled from the spec: the watcher script is absent from the source;
one serialized step of the loop. A change event first lets already-elapsed
windows fire, then (re)starts the window of the first target the event
matches; an interrupt runs the shutdown procedure. A stopped loop ignores
events. -/
def step (cfg : WatcherConfig) (act : Nat → Bool) (s : LoopState) : Input → LoopState
  | Input.change t e =>
    if s.alive then
      let s1 := fireElapsed act t s
      match cfg.targets.findIdx? (fun w => matchesTarget w e) with
      | some i => restartTimer cfg i t s1
      | none => s1
    else s
  | Input.interrupt _ => shutdown s

/-- Modelled from the spec: the watcher script is absent from the source;
after the trace ends, a still-watching loop reaches quiescence: every
remaining DebounceWindow elapses without a new matching event and fires at
its deadline. A stopped loop fires nothing. -/
def settle (act : Nat → Bool) (s : LoopState) : LoopState :=
  if s.alive then
    { s with
      timers := [],
      log := s.log ++ s.timers.map Prod.snd,
      reported := s.reported +
        (List.range s.timers.length).countP (fun k => !act (s.log.length + k)) }
  else s

/-- The loop's state after consuming a trace, before quiescence. -/
def midState (cfg : WatcherConfig) (act : Nat → Bool) (inputs : List Input) : LoopState :=
  inputs.foldl (step cfg act) startState

/-- Modelled from the spec: the watcher script is absent from the source;
a whole execution: consume the trace, then reach quiescence. -/
def runLoop (cfg : WatcherConfig) (act : Nat → Bool) (inputs : List Input) : LoopState :=
  settle act (midState cfg act inputs)

/-- The spec's invariant: at most one debounce timer active per watch
target, i.e. the active deadlines carry pairwise distinct target keys. -/
def onePerTarget (s : LoopState) : Prop := (s.timers.map Prod.fst).Nodup

/-! Concrete fixtures used to instantiate the theorems below. -/

/-- The spec's example watch target: `./src` with a 200ms debounce. -/
def tgt0 : WatchTarget := ⟨"./src", [".py"]⟩

/-- A configuration with the single target `tgt0` and 200ms debounce. -/
def cfg0 : WatcherConfig := ⟨[tgt0], 200⟩

/-- The spec's example event: a touch of `./src/a.py`. -/
def ev0 : ChangeEvent := ⟨"./src/a.py", EvKind.modified⟩

/-- The spec's example event: a touch of `./src/b.py`. -/
def evB : ChangeEvent := ⟨"./src/b.py", EvKind.modified⟩

/-- An action that always succeeds. -/
def actOk : Nat → Bool := fun _ => true

/-- An action that always fails (exits with status 1). -/
def actFail : Nat → Bool := fun _ => false

/-- A trace whose first invocation has already fired (and failed) by the
time the trace is consumed: two touches 300ms apart under a 200ms debounce. -/
def failTrace : List Input := [Input.change 0 ev0, Input.change 300 ev0]

/-- A state holding two active windows on distinct targets. -/
def demoState : LoopState := ⟨true, [(0, 3), (1, 9)], [], 0, 0⟩

/-- A short trace ending in an interrupt. -/
def demoTrace : List Input := [Input.change 0 ev0, Input.interrupt 4]

/-- A one-touch trace, later extended with an interrupt. -/
def introTrace : List Input := [Input.change 0 ev0]

end Livedev

namespace Livedev

/-- C7: the packaging descriptor names the project "livedev" and its
`install_requires` list has exactly one entry, the filesystem-notification
library `inotify` with version bound `>=0.2.10`. -/
theorem setup_declares_single_inotify_dependency :
    setupKwargs.lookup "name" = some (PyVal.str "livedev") ∧
    declaredList "install_requires" = ["inotify>=0.2.10"] ∧
    (declaredList "install_requires").length = 1 ∧
    "inotify>=0.2.10".data = "inotify".data ++ ">=".data ++ "0.2.10".data := by
  refine ⟨rfl, rfl, rfl, ?_⟩
  decide

/-- C8: the descriptor declares exactly one installed script, whose path is
`livedev/livedev` and whose installed name is `livedev`; it declares no
`entry_points` (the only other setuptools mechanism for CLI commands), so no
flags or subcommands are declared. -/
theorem setup_declares_single_script :
    declaredList "scripts" = ["livedev/livedev"] ∧
    (declaredList "scripts").length = 1 ∧
    scriptName "livedev/livedev" = "livedev" ∧
    setupKwargs.lookup "entry_points" = none := by
  refine ⟨rfl, rfl, ?_, rfl⟩
  decide

/-- C9: `setup.py` is 23 lines long; line 1 is the import, line 2 is blank,
and lines 3 through 23 are exactly the `setup(...)` call, so the file holds
no logic other than that call. -/
theorem setup_py_is_23_lines_of_declaration :
    setupPyLines.length = 23 ∧
    setupPyLines.take 2 = ["from setuptools import setup", ""] ∧
    (setupPyLines.drop 2).head? = some "setup(" ∧
    (setupPyLines.drop 2).getLast? = some ")" ∧
    (setupPyLines.drop 2).length = 21 := by
  refine ⟨rfl, rfl, rfl, ?_, rfl⟩
  rfl

/-- C10: the `packages` list is exactly `["tests"]` and contains no
`livedev` package, so the tool's code ships only through the single script
entry; the description is the empty string and no `version` keyword is
declared. -/
theorem setup_installs_no_implementation_package :
    declaredList "packages" = ["tests"] ∧
    "livedev" ∉ declaredList "packages" ∧
    declaredList "scripts" = ["livedev/livedev"] ∧
    setupKwargs.lookup "description" = some (PyVal.str "") ∧
    setupKwargs.lookup "version" = none := by
  refine ⟨rfl, ?_, rfl, rfl, rfl⟩
  decide

/-! ### Basic lemmas about the loop -/

theorem step_not_alive (cfg : WatcherConfig) (act : Nat → Bool) {s : LoopState}
    (h : s.alive = false) (inp : Input) : step cfg act s inp = s := by
  cases inp with
  | change t e => simp [step, h]
  | interrupt t => simp [step, shutdown, h]

theorem foldl_not_alive (cfg : WatcherConfig) (act : Nat → Bool) :
    ∀ (l : List Input) {s : LoopState}, s.alive = false →
      l.foldl (step cfg act) s = s := by
  intro l
  induction l with
  | nil => intro s _; rfl
  | cons inp rest ih =>
    intro s h
    rw [List.foldl_cons, step_not_alive cfg act h inp, ih h]

theorem settle_not_alive (act : Nat → Bool) {s : LoopState} (h : s.alive = false) :
    settle act s = s := by
  simp [settle, h]

theorem step_change_alive (cfg : WatcherConfig) (act : Nat → Bool) (s : LoopState)
    (t : Nat) (e : ChangeEvent) :
    (step cfg act s (Input.change t e)).alive = s.alive := by
  cases ha : s.alive with
  | false => rw [step_not_alive cfg act ha]; exact ha
  | true =>
    cases hm : cfg.targets.findIdx? (fun w => matchesTarget w e) <;>
      simp [step, ha, hm, fireElapsed, restartTimer]

theorem step_change_released (cfg : WatcherConfig) (act : Nat → Bool) (s : LoopState)
    (t : Nat) (e : ChangeEvent) :
    (step cfg act s (Input.change t e)).released = s.released := by
  cases ha : s.alive with
  | false => rw [step_not_alive cfg act ha]
  | true =>
    cases hm : cfg.targets.findIdx? (fun w => matchesTarget w e) <;>
      simp [step, ha, hm, fireElapsed, restartTimer]

theorem foldl_changes (cfg : WatcherConfig) (act : Nat → Bool) :
    ∀ (inputs : List Input) (s : LoopState), inputs.all Input.isChange = true →
      s.alive = true →
      (inputs.foldl (step cfg act) s).alive = true ∧
      (inputs.foldl (step cfg act) s).released = s.released := by
  intro inputs
  induction inputs with
  | nil => intro s _ ha; exact ⟨ha, rfl⟩
  | cons inp rest ih =>
    intro s hall ha
    rw [List.all_cons, Bool.and_eq_true] at hall
    cases inp with
    | change t e =>
      rw [List.foldl_cons]
      have h1 := step_change_alive cfg act s t e
      have h2 := step_change_released cfg act s t e
      have := ih (step cfg act s (Input.change t e)) hall.2 (h1.trans ha)
      exact ⟨this.1, this.2.trans h2⟩
    | interrupt t => simp [Input.isChange] at hall

theorem burst_foldl (cfg : WatcherConfig) (act : Nat → Bool) (e : ChangeEvent) (i : Nat)
    (hm : cfg.targets.findIdx? (fun w => matchesTarget w e) = some i) :
    ∀ (ts : List Nat) (t0 : Nat) (s : LoopState),
      s.alive = true →
      s.timers = [(i, t0 + cfg.debounce)] →
      List.Chain' (fun a b => a ≤ b ∧ b ≤ a + cfg.debounce) (t0 :: ts) →
      (ts.map (fun t => Input.change t e)).foldl (step cfg act) s =
        { s with timers := [(i, ts.getLastD t0 + cfg.debounce)] } := by
  intro ts
  induction ts with
  | nil =>
    intro t0 s _ ht _
    simp only [List.map_nil, List.foldl_nil, List.getLastD_nil]
    rw [← ht]
  | cons t1 rest ih =>
    intro t0 s ha ht hchain
    rw [List.chain'_cons] at hchain
    obtain ⟨⟨h01, h01d⟩, hchain'⟩ := hchain
    have hd1 : (decide (t0 + cfg.debounce < t1)) = false := by
      simp only [decide_eq_false_iff_not]; omega
    have hd2 : (decide (t1 ≤ t0 + cfg.debounce)) = true := by
      simp only [decide_eq_true_eq]; omega
    have hstep : step cfg act s (Input.change t1 e) =
        { s with timers := [(i, t1 + cfg.debounce)] } := by
      simp [step, ha, hm, fireElapsed, restartTimer, ht, List.filter_cons, hd1, hd2]
    rw [List.map_cons, List.foldl_cons, hstep, List.getLastD_cons]
    exact ih t1 _ ha rfl hchain'

/-- C1: for every nonempty time-ordered sequence of matching change events
whose consecutive gaps stay within the debounce interval, the loop invokes
the action exactly once, at the moment the timer elapses after the last
event (last event time plus the debounce interval). -/
theorem debounced_burst_fires_once (cfg : WatcherConfig) (act : Nat → Bool)
    (e : ChangeEvent) (i : Nat) (ts : List Nat)
    (hne : ts ≠ [])
    (hm : cfg.targets.findIdx? (fun w => matchesTarget w e) = some i)
    (hchain : List.Chain' (fun a b => a ≤ b ∧ b ≤ a + cfg.debounce) ts) :
    (runLoop cfg act (ts.map (fun t => Input.change t e))).log
      = [ts.getLastD 0 + cfg.debounce] := by
  cases ts with
  | nil => exact absurd rfl hne
  | cons t0 rest =>
    have hstep0 : step cfg act startState (Input.change t0 e) =
        { startState with timers := [(i, t0 + cfg.debounce)] } := by
      simp [step, startState, fireElapsed, restartTimer, hm]
    rw [runLoop, midState, List.map_cons, List.foldl_cons, hstep0,
      burst_foldl cfg act e i hm rest t0 _ rfl rfl hchain, List.getLastD_cons]
    simp [settle, startState]

/-- C1 witness: the spec's scenario — touches at 0ms and 50ms under a 200ms
debounce yield exactly one invocation, at 250ms. -/
theorem debounced_burst_fires_once_witness :
    (runLoop cfg0 actOk ([0, 50].map (fun t => Input.change t ev0))).log = [250] :=
  debounced_burst_fires_once cfg0 actOk ev0 0 [0, 50]
    (by decide) (by decide) (by norm_num [List.chain'_cons, cfg0])

theorem dropLast_map_getLastD (f : Nat → Nat) :
    ∀ (l : List Nat) (t0 : Nat),
      (t0 :: l).dropLast.map f ++ [f (l.getLastD t0)] = (t0 :: l).map f := by
  intro l
  induction l with
  | nil => intro t0; rfl
  | cons a l' ih =>
    intro t0
    have h : (t0 :: a :: l').dropLast = t0 :: (a :: l').dropLast := rfl
    rw [h, List.map_cons, List.getLastD_cons, List.cons_append, ih a, List.map_cons]
    rfl

theorem spaced_foldl (cfg : WatcherConfig) (act : Nat → Bool) (e : ChangeEvent) (i : Nat)
    (hm : cfg.targets.findIdx? (fun w => matchesTarget w e) = some i) :
    ∀ (ts : List Nat) (t0 : Nat) (s : LoopState),
      s.alive = true →
      s.timers = [(i, t0 + cfg.debounce)] →
      List.Chain' (fun a b => a + cfg.debounce < b) (t0 :: ts) →
      ((ts.map (fun t => Input.change t e)).foldl (step cfg act) s).alive = true ∧
      ((ts.map (fun t => Input.change t e)).foldl (step cfg act) s).timers
        = [(i, ts.getLastD t0 + cfg.debounce)] ∧
      ((ts.map (fun t => Input.change t e)).foldl (step cfg act) s).log
        = s.log ++ (t0 :: ts).dropLast.map (· + cfg.debounce) := by
  intro ts
  induction ts with
  | nil =>
    intro t0 s ha ht _
    simp only [List.map_nil, List.foldl_nil, List.getLastD_nil, List.dropLast_single]
    exact ⟨ha, ht, by simp⟩
  | cons t1 rest ih =>
    intro t0 s ha ht hchain
    rw [List.chain'_cons] at hchain
    obtain ⟨h01, hchain'⟩ := hchain
    have hd1 : (decide (t0 + cfg.debounce < t1)) = true := by
      simp only [decide_eq_true_eq]; omega
    have hd2 : (decide (t1 ≤ t0 + cfg.debounce)) = false := by
      simp only [decide_eq_false_iff_not]; omega
    have hstep : step cfg act s (Input.change t1 e) =
        { s with
            timers := [(i, t1 + cfg.debounce)],
            log := s.log ++ [t0 + cfg.debounce],
            reported := s.reported +
              (List.range 1).countP (fun k => !act (s.log.length + k)) } := by
      simp [step, ha, hm, fireElapsed, restartTimer, ht, List.filter_cons, hd1, hd2]
    rw [List.map_cons, List.foldl_cons, hstep]
    obtain ⟨ga, gt, gl⟩ := ih t1
      { s with timers := [(i, t1 + cfg.debounce)],
               log := s.log ++ [t0 + cfg.debounce],
               reported := s.reported +
                 (List.range 1).countP (fun k => !act (s.log.length + k)) }
      ha rfl hchain'
    refine ⟨ga, ?_, ?_⟩
    · rw [gt, List.getLastD_cons]
    · rw [gl]
      have h : (t0 :: t1 :: rest).dropLast = t0 :: (t1 :: rest).dropLast := rfl
      simp [h, List.append_assoc]

/-- C2: for every time-ordered sequence of matching change events in which
each consecutive pair is separated by strictly more than the debounce
interval, the loop invokes the action once per event, each invocation at
its own event's time plus the debounce interval. -/
theorem spaced_events_fire_once_each (cfg : WatcherConfig) (act : Nat → Bool)
    (e : ChangeEvent) (i : Nat) (ts : List Nat)
    (hm : cfg.targets.findIdx? (fun w => matchesTarget w e) = some i)
    (hchain : List.Chain' (fun a b => a + cfg.debounce < b) ts) :
    (runLoop cfg act (ts.map (fun t => Input.change t e))).log
      = ts.map (· + cfg.debounce) ∧
    (runLoop cfg act (ts.map (fun t => Input.change t e))).log.length
      = ts.length := by
  cases ts with
  | nil => exact ⟨by simp [runLoop, midState, settle, startState], by simp [runLoop, midState, settle, startState]⟩
  | cons t0 rest =>
    have hstep0 : step cfg act startState (Input.change t0 e) =
        { startState with timers := [(i, t0 + cfg.debounce)] } := by
      simp [step, startState, fireElapsed, restartTimer, hm]
    have hmain : (runLoop cfg act ((t0 :: rest).map (fun t => Input.change t e))).log
        = (t0 :: rest).map (· + cfg.debounce) := by
      rw [runLoop, midState, List.map_cons, List.foldl_cons, hstep0]
      obtain ⟨ga, gt, gl⟩ :=
        spaced_foldl cfg act e i hm rest t0
          { startState with timers := [(i, t0 + cfg.debounce)] } rfl rfl hchain
      rw [settle, if_pos ga, gt, gl]
      simp only [startState, List.map_cons, List.map_nil, List.nil_append]
      exact dropLast_map_getLastD (· + cfg.debounce) rest t0
    exact ⟨hmain, by rw [hmain, List.length_map]⟩

/-- C2 witness: touches at 0ms, 300ms and 700ms under a 200ms debounce give
three invocations, at 200ms, 500ms and 900ms. -/
theorem spaced_events_fire_once_each_witness :
    (runLoop cfg0 actOk ([0, 300, 700].map (fun t => Input.change t ev0))).log
      = [200, 500, 900] ∧
    (runLoop cfg0 actOk ([0, 300, 700].map (fun t => Input.change t ev0))).log.length
      = 3 :=
  spaced_events_fire_once_each cfg0 actOk ev0 0 [0, 300, 700]
    (by decide) (by norm_num [List.chain'_cons, cfg0])

theorem countP_range_shift (f : Nat → Bool) (a : Nat) :
    ∀ b : Nat, (List.range (a + b)).countP f
      = (List.range a).countP f + (List.range b).countP (fun k => f (a + k)) := by
  intro b
  induction b with
  | zero => simp
  | succ b ih =>
    rw [Nat.add_succ, List.range_succ, List.countP_append, ih, List.range_succ,
      List.countP_append]
    simp [List.countP_cons, List.countP_nil, Nat.add_assoc]

theorem fireElapsed_reported (act : Nat → Bool) (t : Nat) (s : LoopState)
    (h : s.reported = (List.range s.log.length).countP (fun k => !act k)) :
    (fireElapsed act t s).reported
      = (List.range (fireElapsed act t s).log.length).countP (fun k => !act k) := by
  simp only [fireElapsed]
  rw [List.length_append, List.length_map, countP_range_shift, h]

theorem step_reported (cfg : WatcherConfig) (act : Nat → Bool) (s : LoopState) (inp : Input)
    (h : s.reported = (List.range s.log.length).countP (fun k => !act k)) :
    (step cfg act s inp).reported
      = (List.range (step cfg act s inp).log.length).countP (fun k => !act k) := by
  cases inp with
  | interrupt t => cases hs : s.alive <;> simp [step, shutdown, hs, h]
  | change t e =>
    cases hs : s.alive with
    | false => rw [step_not_alive cfg act hs]; exact h
    | true =>
      have hf := fireElapsed_reported act t s h
      cases hm : cfg.targets.findIdx? (fun w => matchesTarget w e) with
      | none => simpa [step, hs, hm] using hf
      | some i => simpa [step, hs, hm, restartTimer] using hf

theorem foldl_reported (cfg : WatcherConfig) (act : Nat → Bool) :
    ∀ (inputs : List Input) (s : LoopState),
      s.reported = (List.range s.log.length).countP (fun k => !act k) →
      (inputs.foldl (step cfg act) s).reported
        = (List.range (inputs.foldl (step cfg act) s).log.length).countP
            (fun k => !act k) := by
  intro inputs
  induction inputs with
  | nil => intro s h; exact h
  | cons inp rest ih => intro s h; exact ih _ (step_reported cfg act s inp h)

theorem step_all_elapsed (cfg : WatcherConfig) (act : Nat → Bool) (s : LoopState)
    (t : Nat) (e : ChangeEvent) (i : Nat)
    (hal : s.alive = true)
    (hm : cfg.targets.findIdx? (fun w => matchesTarget w e) = some i)
    (hlate : ∀ p ∈ s.timers, p.2 < t) :
    (step cfg act s (Input.change t e)).alive = true ∧
    (step cfg act s (Input.change t e)).timers = [(i, t + cfg.debounce)] ∧
    (step cfg act s (Input.change t e)).log.length
      = s.log.length + s.timers.length := by
  have h1 : s.timers.filter (fun p => decide (p.2 < t)) = s.timers :=
    List.filter_eq_self.mpr (fun p hp => decide_eq_true (hlate p hp))
  have h2 : s.timers.filter (fun p => decide (t ≤ p.2)) = [] := by
    refine List.filter_eq_nil_iff.mpr (fun p hp => ?_)
    have := hlate p hp
    simp only [decide_eq_true_eq]
    omega
  refine ⟨?_, ?_, ?_⟩ <;>
    simp [step, hal, hm, fireElapsed, restartTimer, h1, h2]

theorem settle_log_length (act : Nat → Bool) (s : LoopState) (hal : s.alive = true) :
    (settle act s).log.length = s.log.length + s.timers.length := by
  simp [settle, hal]

/-- C3: for every interrupt-free execution in which some action invocation
has failed, the loop is still watching: the failure was reported to the
operator, and a subsequent matching change event (arriving after all
pending deadlines) yields exactly one further invocation. -/
theorem action_failure_keeps_watching (cfg : WatcherConfig) (act : Nat → Bool)
    (inputs : List Input) (t : Nat) (e : ChangeEvent) (i : Nat)
    (hchange : inputs.all Input.isChange = true)
    (hm : cfg.targets.findIdx? (fun w => matchesTarget w e) = some i)
    (hlate : ∀ p ∈ (midState cfg act inputs).timers, p.2 < t)
    (hfail : ∃ k ∈ List.range (midState cfg act inputs).log.length, act k = false) :
    (midState cfg act inputs).alive = true ∧
    0 < (midState cfg act inputs).reported ∧
    (runLoop cfg act (inputs ++ [Input.change t e])).log.length
      = (runLoop cfg act inputs).log.length + 1 := by
  have hal : (midState cfg act inputs).alive = true :=
    (foldl_changes cfg act inputs startState hchange rfl).1
  have hrep : (midState cfg act inputs).reported
      = (List.range (midState cfg act inputs).log.length).countP
          (fun k => !act k) :=
    foldl_reported cfg act inputs startState rfl
  refine ⟨hal, ?_, ?_⟩
  · rw [hrep, List.countP_pos_iff]
    obtain ⟨k, hk, hkf⟩ := hfail
    exact ⟨k, hk, by simp [hkf]⟩
  · obtain ⟨sa, st, sl⟩ :=
      step_all_elapsed cfg act (midState cfg act inputs) t e i hal hm hlate
    have hext : midState cfg act (inputs ++ [Input.change t e])
        = step cfg act (midState cfg act inputs) (Input.change t e) := by
      simp [midState, List.foldl_append]
    rw [runLoop, hext, settle_log_length act _ sa, sl, st,
      runLoop, settle_log_length act _ hal]
    simp

/-- C3 witness: with an always-failing action, two touches 300ms apart have
already produced one failed invocation; the loop is still alive, one failure
is reported, and a touch of `./src/b.py` at 1000ms produces exactly one more
invocation. -/
theorem action_failure_keeps_watching_witness :
    (midState cfg0 actFail failTrace).alive = true ∧
    0 < (midState cfg0 actFail failTrace).reported ∧
    (runLoop cfg0 actFail (failTrace ++ [Input.change 1000 evB])).log.length
      = (runLoop cfg0 actFail failTrace).log.length + 1 :=
  action_failure_keeps_watching cfg0 actFail failTrace 1000 evB 0
    (by decide) (by decide) (by decide) (by decide)

theorem filter_keys_nodup (f : Nat × Nat → Bool) {l : List (Nat × Nat)}
    (h : (l.map Prod.fst).Nodup) : ((l.filter f).map Prod.fst).Nodup :=
  h.sublist (List.Sublist.map Prod.fst (List.filter_sublist l))

theorem restartTimer_onePerTarget (cfg : WatcherConfig) (i t : Nat) (s : LoopState)
    (h : onePerTarget s) : onePerTarget (restartTimer cfg i t s) := by
  simp only [onePerTarget, restartTimer, List.map_cons, List.nodup_cons]
  refine ⟨?_, filter_keys_nodup _ h⟩
  simp only [List.mem_map, List.mem_filter, decide_eq_true_eq, not_exists]
  rintro p ⟨⟨_, hpi⟩, hfst⟩
  exact hpi hfst

theorem step_onePerTarget (cfg : WatcherConfig) (act : Nat → Bool) (s : LoopState)
    (inp : Input) (h : onePerTarget s) : onePerTarget (step cfg act s inp) := by
  cases inp with
  | interrupt t =>
    cases hs : s.alive with
    | false => rw [step_not_alive cfg act hs]; exact h
    | true => simp [step, shutdown, hs, onePerTarget]
  | change t e =>
    cases hs : s.alive with
    | false => rw [step_not_alive cfg act hs]; exact h
    | true =>
      have hf : onePerTarget (fireElapsed act t s) := filter_keys_nodup _ h
      cases hm : cfg.targets.findIdx? (fun w => matchesTarget w e) with
      | none => simpa [step, hs, hm] using hf
      | some i =>
        have := restartTimer_onePerTarget cfg i t (fireElapsed act t s) hf
        simpa [step, hs, hm] using this

theorem foldl_onePerTarget (cfg : WatcherConfig) (act : Nat → Bool) :
    ∀ (inputs : List Input) (s : LoopState), onePerTarget s →
      onePerTarget (inputs.foldl (step cfg act) s) := by
  intro inputs
  induction inputs with
  | nil => intro s h; exact h
  | cons inp rest ih => intro s h; exact ih _ (step_onePerTarget cfg act s inp h)

theorem settle_onePerTarget (act : Nat → Bool) (s : LoopState)
    (h : onePerTarget s) : onePerTarget (settle act s) := by
  cases hs : s.alive with
  | false => rw [settle_not_alive act hs]; exact h
  | true => simp [settle, hs, onePerTarget]

/-- C5: in every reachable state of the loop at most one debounce timer is
active per watch target (the active deadlines carry pairwise distinct target
keys); the invariant holds at start, is preserved by every step, by
quiescence and by shutdown, and therefore holds after any trace. -/
theorem one_timer_per_target (cfg : WatcherConfig) (act : Nat → Bool)
    (inputs : List Input) :
    onePerTarget startState ∧
    (∀ (s : LoopState) (inp : Input),
      onePerTarget s → onePerTarget (step cfg act s inp)) ∧
    (∀ s : LoopState, onePerTarget s →
      onePerTarget (settle act s) ∧ onePerTarget (shutdown s)) ∧
    onePerTarget (midState cfg act inputs) ∧
    onePerTarget (runLoop cfg act inputs) := by
  have hstart : onePerTarget startState := by
    simp [onePerTarget, startState]
  have hshut : ∀ s : LoopState, onePerTarget s → onePerTarget (shutdown s) := by
    intro s h
    cases hs : s.alive with
    | false => simpa [shutdown, hs] using h
    | true => simp [shutdown, hs, onePerTarget]
  have hmid : onePerTarget (midState cfg act inputs) :=
    foldl_onePerTarget cfg act inputs startState hstart
  exact ⟨hstart, step_onePerTarget cfg act,
    fun s h => ⟨settle_onePerTarget act s h, hshut s h⟩,
    hmid, settle_onePerTarget act _ hmid⟩

/-- C5 witness: one step on a state with two distinct-target windows, and a
whole trace ending in an interrupt, both keep the one-timer-per-target
invariant. -/
theorem one_timer_per_target_witness :
    onePerTarget (step cfg0 actOk demoState (Input.change 5 ev0)) ∧
    onePerTarget (runLoop cfg0 actOk demoTrace) :=
  ⟨(one_timer_per_target cfg0 actOk demoTrace).2.1 demoState (Input.change 5 ev0)
      (by show (demoState.timers.map Prod.fst).Nodup; decide),
    (one_timer_per_target cfg0 actOk demoTrace).2.2.2.2⟩

/-- C6: an external interrupt arriving while debounce timers are in flight
stops the loop, abandons every active timer, releases the subscriptions
exactly once, and the pending actions are never invoked afterwards: the
remainder of the trace leaves the stopped state unchanged, so the final
invocation log is exactly the log at the moment of the interrupt. -/
theorem interrupt_abandons_pending (cfg : WatcherConfig) (act : Nat → Bool)
    (inputs : List Input) (t : Nat) (rest : List Input)
    (hchange : inputs.all Input.isChange = true) :
    (step cfg act (midState cfg act inputs) (Input.interrupt t)).alive = false ∧
    (step cfg act (midState cfg act inputs) (Input.interrupt t)).timers = [] ∧
    (step cfg act (midState cfg act inputs) (Input.interrupt t)).released = 1 ∧
    runLoop cfg act (inputs ++ Input.interrupt t :: rest)
      = step cfg act (midState cfg act inputs) (Input.interrupt t) ∧
    (runLoop cfg act (inputs ++ Input.interrupt t :: rest)).log
      = (midState cfg act inputs).log := by
  have hal : (midState cfg act inputs).alive = true :=
    (foldl_changes cfg act inputs startState hchange rfl).1
  have hrel : (midState cfg act inputs).released = 0 :=
    (foldl_changes cfg act inputs startState hchange rfl).2
  have hstep : step cfg act (midState cfg act inputs) (Input.interrupt t)
      = { midState cfg act inputs with
            alive := false,
            timers := [],
            released := (midState cfg act inputs).released + 1 } := by
    simp [step, shutdown, hal]
  have hdead : (step cfg act (midState cfg act inputs) (Input.interrupt t)).alive
      = false := by
    rw [hstep]
  have hmid : midState cfg act (inputs ++ Input.interrupt t :: rest)
      = List.foldl (step cfg act)
          (step cfg act (midState cfg act inputs) (Input.interrupt t)) rest := by
    simp [midState, List.foldl_append]
  have hrun : runLoop cfg act (inputs ++ Input.interrupt t :: rest)
      = step cfg act (midState cfg act inputs) (Input.interrupt t) := by
    unfold runLoop
    rw [hmid, foldl_not_alive cfg act rest hdead, settle_not_alive act hdead]
  refine ⟨hdead, ?_, ?_, hrun, ?_⟩
  · rw [hstep]
  · rw [hstep]
    simp [hrel]
  · rw [hrun, hstep]

/-- C6 witness: a touch at 0ms, an interrupt at 100ms while the 200ms timer
is in flight, then a further touch at 700ms: the loop stops, the timer is
abandoned, the subscriptions are released once, and no action is ever
invoked. -/
theorem interrupt_abandons_pending_witness :
    (step cfg0 actOk (midState cfg0 actOk introTrace) (Input.interrupt 100)).alive
      = false ∧
    (step cfg0 actOk (midState cfg0 actOk introTrace) (Input.interrupt 100)).timers
      = [] ∧
    (step cfg0 actOk (midState cfg0 actOk introTrace) (Input.interrupt 100)).released
      = 1 ∧
    runLoop cfg0 actOk (introTrace ++ Input.interrupt 100 :: [Input.change 700 ev0])
      = step cfg0 actOk (midState cfg0 actOk introTrace) (Input.interrupt 100) ∧
    (runLoop cfg0 actOk
        (introTrace ++ Input.interrupt 100 :: [Input.change 700 ev0])).log
      = (midState cfg0 actOk introTrace).log :=
  interrupt_abandons_pending cfg0 actOk introTrace 100 [Input.change 700 ev0]
    (by decide)

/-- C4: the shutdown procedure is idempotent: a second shutdown leaves the
state exactly as the first left it, and a single shutdown releases the
subscriptions at most once. -/
theorem shutdown_idempotent (s : LoopState) :
    shutdown (shutdown s) = shutdown s ∧
    (shutdown s).released ≤ s.released + 1 := by
  cases hs : s.alive with
  | false => simp [shutdown, hs]
  | true => simp [shutdown, hs]

end Livedev
